import Mathlib

/-!
Verification of the OMNIX runtime against its specification.

This file gives a shallow embedding of the distributed-runtime core of the
repository and proves (or refutes) the frozen claims about it.  The embedded
code comes from three source files:

  * src/runtime/src/raft.rs   — the simplified Raft node (RaftNode);
  * src/runtime/src/crdt.rs   — the CRDT library (GCounter, PNCounter,
                                LWWMap, ORSet);
  * src/runtime/src/state.rs  — the distributed state manager
                                (DistributedState with four consistency modes).

Modelling conventions:

  * Rust u64 / usize are modelled as Nat, i64 as Int.  No arithmetic in the
    embedded fragments relies on wrap-around behaviour at any input the
    theorems touch, so machine-width reduction is not modelled.
  * HashMap<K, V> is modelled as a function K → Option V (lookup view);
    HashMap<String, u64> counters are modelled as a total function
    String → Nat (absent key = 0, matching entry().or_insert(0)) together
    with a Finset support of present keys, so that value() — the sum of the
    present entries — is expressible.
  * tokio Instant is modelled as an abstract Nat clock; every handler that
    reads Instant::now() receives it as an explicit argument.
  * async handlers run to completion while holding the node's locks in the
    source, so each handler is modelled as a pure state-transition function.
  * anyhow errors are modelled as small error enums; the strings
    "Not the leader" and "Failed to achieve quorum" become the constructors
    notLeader and quorumNotReached.
-/

namespace Omnix

/-- Role of a raft node (src/runtime/src/raft.rs, enum NodeState). -/
inductive NodeState where
  | Follower
  | Candidate
  | Leader
  deriving DecidableEq, Repr

/-- Replicated log entry (src/runtime/src/raft.rs, struct LogEntry).
The payload Vec<u8> is modelled as List Nat. -/
structure LogEntry where
  term : Nat
  index : Nat
  value : List Nat
  deriving DecidableEq, Repr

/-- Body of a raft message (src/runtime/src/raft.rs, enum RaftMessageType). -/
inductive RaftMessageType where
  | RequestVote (candidateId : String) (lastLogIndex : Nat) (lastLogTerm : Nat)
  | RequestVoteResponse (voteGranted : Bool)
  | AppendEntries (leaderId : String) (prevLogIndex : Nat) (prevLogTerm : Nat)
      (entries : List LogEntry) (leaderCommit : Nat)
  | AppendEntriesResponse (success : Bool) (matchIndex : Nat)
  | Heartbeat
  deriving DecidableEq, Repr

/-- Raft message envelope (src/runtime/src/raft.rs, struct RaftMessage).
The source field `from` is renamed `sender` (keyword in Lean). -/
structure RaftMessage where
  term : Nat
  sender : String
  mtype : RaftMessageType
  deriving DecidableEq, Repr

/-- Mutable state of a raft node (src/runtime/src/raft.rs, struct RaftNode).
The Arc<RwLock<…>> cells become plain fields; next_index / match_index
HashMaps become total functions (entries not yet inserted are irrelevant to
every claim); last_heartbeat is a Nat clock. -/
structure RaftState where
  nodeId : String
  state : NodeState
  currentTerm : Nat
  votedFor : Option String
  log : List LogEntry
  commitIndex : Nat
  lastApplied : Nat
  nextIndex : String → Nat
  matchIndex : String → Nat
  peers : List String
  lastHeartbeat : Nat

/-- Term of the last log entry, 0 for the empty log
(raft.rs: log.last().map(|e| e.term).unwrap_or(0)). -/
def lastLogTerm (log : List LogEntry) : Nat :=
  ((log.getLast?).map LogEntry.term).getD 0

/-- RaftNode::is_log_up_to_date (raft.rs lines 394–400). -/
def isLogUpToDate (log : List LogEntry) (lastLogIndex lastLogTerm' : Nat) : Bool :=
  decide (lastLogTerm' > lastLogTerm log) ||
    (decide (lastLogTerm' = lastLogTerm log) && decide (lastLogIndex ≥ log.length))

/-- RaftNode::check_log_consistency (raft.rs lines 402–415).
Indices are 1-based; log[prev_log_index as usize - 1] becomes get? (i-1). -/
def checkLogConsistency (log : List LogEntry) (prevLogIndex prevLogTerm : Nat) : Bool :=
  if prevLogIndex = 0 then true
  else if prevLogIndex > log.length then false
  else
    match log.get? (prevLogIndex - 1) with
    | some e => decide (e.term = prevLogTerm)
    | none => false

/-- RaftNode::handle_append_entries (raft.rs lines 342–392), in source order:
reset the heartbeat clock; become follower when term ≥ currentTerm; when the
log-consistency check passes, truncate to prev_log_index+1 entries if longer,
extend with the new entries, and raise commitIndex to
min(leader_commit, log.len()) only when leader_commit exceeds it. -/
def handleAppendEntries (s : RaftState) (term : Nat) (_leaderId : String)
    (prevLogIndex prevLogTerm : Nat) (entries : List LogEntry)
    (leaderCommit : Nat) (now : Nat) : RaftState :=
  let s1 := { s with lastHeartbeat := now }
  let s2 := if term ≥ s1.currentTerm then { s1 with state := NodeState.Follower } else s1
  if checkLogConsistency s2.log prevLogIndex prevLogTerm then
    let startIndex := prevLogIndex + 1
    let newLog :=
      (if s2.log.length > startIndex then s2.log.take startIndex else s2.log) ++ entries
    let s3 := { s2 with log := newLog }
    if leaderCommit > s3.commitIndex then
      { s3 with commitIndex := min leaderCommit newLog.length }
    else s3
  else s2

/-- The vote_granted condition of RaftNode::handle_request_vote
(raft.rs lines 327–329). -/
def voteGranted (s : RaftState) (term : Nat) (candidateId : String)
    (lastLogIndex lastLogTerm' : Nat) : Bool :=
  decide (term ≥ s.currentTerm) &&
    (decide (s.votedFor = none) || decide (s.votedFor = some candidateId)) &&
    isLogUpToDate s.log lastLogIndex lastLogTerm'

/-- RaftNode::handle_request_vote (raft.rs lines 317–340): when the vote is
granted, record voted_for and reset the heartbeat clock. -/
def handleRequestVote (s : RaftState) (term : Nat) (candidateId : String)
    (lastLogIndex lastLogTerm' : Nat) (now : Nat) : RaftState :=
  if voteGranted s term candidateId lastLogIndex lastLogTerm' then
    { s with votedFor := some candidateId, lastHeartbeat := now }
  else s

/-- The leading block of RaftNode::handle_message (raft.rs lines 268–285):
on a message with a strictly higher term, adopt the term, become Follower and
clear voted_for — before the message body is dispatched. -/
def stepDown (s : RaftState) (msgTerm : Nat) : RaftState :=
  if msgTerm > s.currentTerm then
    { s with currentTerm := msgTerm, state := NodeState.Follower, votedFor := none }
  else s

/-- The match arm of RaftNode::handle_message (raft.rs lines 287–314):
RequestVote and AppendEntries are handled; every other body is a no-op. -/
def dispatchMessage (s : RaftState) (m : RaftMessage) (now : Nat) : RaftState :=
  match m.mtype with
  | RaftMessageType.RequestVote cand lli llt =>
      handleRequestVote s m.term cand lli llt now
  | RaftMessageType.AppendEntries lid pli plt es lc =>
      handleAppendEntries s m.term lid pli plt es lc now
  | _ => s

/-- RaftNode::handle_message (raft.rs lines 268–315): step down first,
then dispatch on the message body. -/
def handleMessage (s : RaftState) (m : RaftMessage) (now : Nat) : RaftState :=
  dispatchMessage (stepDown s m.term) m now

/-- RaftNode::become_leader (raft.rs lines 222–244): set Leader and
initialise next_index[peer] = log.len()+1, match_index[peer] = 0. -/
def becomeLeader (s : RaftState) : RaftState :=
  let logLen := s.log.length
  { s with
    state := NodeState.Leader
    nextIndex := fun p => if p ∈ s.peers then logLen + 1 else s.nextIndex p
    matchIndex := fun p => if p ∈ s.peers then 0 else s.matchIndex p }

/-- RaftNode::start_election (raft.rs lines 170–220): become Candidate,
increment currentTerm, vote for self, reset the clock; with the MVP's
simulated responses vote_count = 1, so the node becomes leader exactly when
1 ≥ (peers.len()+1)/2 + 1. -/
def startElection (s : RaftState) (now : Nat) : RaftState :=
  let s1 := { s with
    state := NodeState.Candidate
    currentTerm := s.currentTerm + 1
    votedFor := some s.nodeId
    lastHeartbeat := now }
  let majority := (s1.peers.length + 1) / 2 + 1
  if 1 ≥ majority then becomeLeader s1 else s1

/-- RaftNode::append_log_entry (raft.rs lines 417–430): push an entry at
1-based index log.len()+1 carrying currentTerm; returns the index. -/
def appendLogEntry (s : RaftState) (v : List Nat) : RaftState × Nat :=
  let index := s.log.length + 1
  ({ s with log := s.log ++ [⟨s.currentTerm, index, v⟩] }, index)

/-- Outcomes of propose.  The source (raft.rs line 444) only ever produces
the anyhow error "Not the leader", modelled as notLeader.  The backpressure
constructor exists so that the specification's Backpressure outcome is
statable; no code path produces it. -/
inductive ProposeError where
  | notLeader
  | backpressure
  deriving DecidableEq, Repr

/-- RaftNode::propose (raft.rs lines 440–449): error on a non-leader,
otherwise append to the log and mint the proposal id (node_id, index)
(the source formats it as "node:index"). -/
def propose (s : RaftState) (v : List Nat) :
    Except ProposeError (RaftState × String × Nat) :=
  if s.state = NodeState.Leader then
    let r := appendLogEntry s v
    Except.ok (r.1, s.nodeId, r.2)
  else
    Except.error ProposeError.notLeader

/-- An event a node handles: an inbound message (message_handler_loop) or an
election timeout firing (election_timer_loop → start_election).  Each event
carries the clock value at which it is handled. -/
inductive RaftEvent where
  | deliver (m : RaftMessage) (now : Nat)
  | electionTimeout (now : Nat)

/-- Effect of one handled event on the node state. -/
def applyEvent (s : RaftState) (e : RaftEvent) : RaftState :=
  match e with
  | RaftEvent.deliver m now => handleMessage s m now
  | RaftEvent.electionTimeout now => startElection s now

/-- Effect of a whole trace of handled events. -/
def applyTrace (s : RaftState) (tr : List RaftEvent) : RaftState :=
  tr.foldl applyEvent s

/-- A follower state with currentTerm 5 and an empty log, used to exercise
handle_append_entries on a stale-term message. -/
def staleFollower : RaftState :=
  { nodeId := "n1", state := NodeState.Follower, currentTerm := 5,
    votedFor := none, log := [], commitIndex := 0, lastApplied := 0,
    nextIndex := fun _ => 0, matchIndex := fun _ => 0, peers := [],
    lastHeartbeat := 0 }

/-- An AppendEntries message with term 3, prev_log_index 0, one entry and
leader_commit 1 — stale with respect to staleFollower's term 5. -/
def staleAppend : RaftMessage :=
  { term := 3, sender := "n2",
    mtype := RaftMessageType.AppendEntries "n2" 0 0 [⟨3, 1, [42]⟩] 1 }

/-- A follower with six committed-prefix entries and commitIndex 5,
used to exercise the truncation path of handle_append_entries. -/
def committedFollower : RaftState :=
  { nodeId := "n1", state := NodeState.Follower, currentTerm := 1,
    votedFor := none,
    log := [⟨1, 1, []⟩, ⟨1, 2, []⟩, ⟨1, 3, []⟩, ⟨1, 4, []⟩, ⟨1, 5, []⟩, ⟨1, 6, []⟩],
    commitIndex := 5, lastApplied := 0,
    nextIndex := fun _ => 0, matchIndex := fun _ => 0, peers := [],
    lastHeartbeat := 0 }

/-- A current-term AppendEntries for committedFollower: prev_log_index 1
(matching term), no entries, leader_commit 6. -/
def truncatingAppend : RaftMessage :=
  { term := 1, sender := "n2",
    mtype := RaftMessageType.AppendEntries "n2" 1 1 [] 6 }

/-- A candidate state with currentTerm 2, used as a witness input. -/
def witnessCandidate : RaftState :=
  { nodeId := "n3", state := NodeState.Candidate, currentTerm := 2,
    votedFor := some "n3", log := [⟨1, 1, [7]⟩], commitIndex := 0,
    lastApplied := 0, nextIndex := fun _ => 0, matchIndex := fun _ => 0,
    peers := ["n1", "n2"], lastHeartbeat := 0 }

/-- A heartbeat message with term 9 > witnessCandidate's term 2. -/
def witnessHighTermMsg : RaftMessage :=
  { term := 9, sender := "n1", mtype := RaftMessageType.Heartbeat }

/-- A leader state whose log holds b+1 entries none of which is committed,
so its outstanding queue exceeds any bound b. -/
def unboundedLeader (b : Nat) : RaftState :=
  { nodeId := "n1", state := NodeState.Leader, currentTerm := 1,
    votedFor := none, log := List.replicate (b + 1) ⟨1, 1, []⟩,
    commitIndex := 0, lastApplied := 0,
    nextIndex := fun _ => 0, matchIndex := fun _ => 0, peers := [],
    lastHeartbeat := 0 }

/-- G-Counter (crdt.rs lines 9–38).  The HashMap<String, u64> of per-node
counts is viewed as a total function (absent key = 0, matching the source's
entry().or_insert(0)) together with a Finset support of present keys; the
wf field pins absent keys to 0 so that the function view and the map view
agree on every state. -/
structure GCounter where
  counts : String → Nat
  support : Finset String
  nodeId : String
  wf : ∀ k, k ∉ support → counts k = 0

/-- GCounter::value (crdt.rs lines 28–30): the sum of the present counts. -/
def GCounter.value (g : GCounter) : Nat :=
  g.support.sum g.counts

/-- GCounter::merge (crdt.rs lines 32–37): pointwise maximum.  For a key
present in other this is the source's *current = (*current).max(*count);
for a key present only in self the other side contributes its default 0 and
the maximum leaves self's count unchanged. -/
def GCounter.merge (g o : GCounter) : GCounter where
  counts := fun k => max (g.counts k) (o.counts k)
  support := g.support ∪ o.support
  nodeId := g.nodeId
  wf := by
    intro k hk
    rw [Finset.mem_union] at hk
    push_neg at hk
    show max (g.counts k) (o.counts k) = 0
    simp [g.wf k hk.1, o.wf k hk.2]

/-- PN-Counter (crdt.rs lines 40–71): a pair of G-Counters. -/
structure PNCounter where
  positive : GCounter
  negative : GCounter

/-- PNCounter::value (crdt.rs lines 63–65): positive minus negative total,
as an integer. -/
def PNCounter.value (p : PNCounter) : Int :=
  (p.positive.value : Int) - (p.negative.value : Int)

/-- PNCounter::merge (crdt.rs lines 67–70): componentwise G-Counter merge. -/
def PNCounter.merge (p q : PNCounter) : PNCounter :=
  ⟨p.positive.merge q.positive, p.negative.merge q.negative⟩

/-- Timestamp of the LWW map (crdt.rs lines 80–84). -/
structure Timestamp where
  time : Nat
  nodeIdHash : Nat
  deriving DecidableEq, Repr

/-- The derived lexicographic order on Timestamp (Rust derive(PartialOrd,
Ord) over the field order (time, node_id_hash)); tsGe a b decides a ≥ b. -/
def tsGe (a b : Timestamp) : Bool :=
  decide (b.time < a.time) ||
    (decide (a.time = b.time) && decide (b.nodeIdHash ≤ a.nodeIdHash))

/-- LWW-Map (crdt.rs lines 73–128): entries viewed as a lookup function. -/
structure LWWMap (V : Type) where
  entries : String → Option (V × Timestamp)
  nodeId : String

/-- LWWMap::get (crdt.rs lines 106–108): the stored value without its
timestamp — the observable read. -/
def LWWMap.get {V : Type} (m : LWWMap V) (k : String) : Option V :=
  (m.entries k).map Prod.fst

/-- Per-key resolution of LWWMap::merge (crdt.rs lines 110–122): keep the
existing entry when its timestamp is ≥ the incoming one, otherwise take the
incoming entry; a key present on one side only keeps that side's entry. -/
def lwwPick {V : Type} (a b : Option (V × Timestamp)) :
    Option (V × Timestamp) :=
  match a, b with
  | some e, some f => if tsGe e.2 f.2 then some e else some f
  | some e, none => some e
  | none, some f => some f
  | none, none => none

/-- LWWMap::merge (crdt.rs lines 110–122). -/
def LWWMap.merge {V : Type} (m o : LWWMap V) : LWWMap V :=
  ⟨fun k => lwwPick (m.entries k) (o.entries k), m.nodeId⟩

/-- OR-Set (crdt.rs lines 130–186): per element the optional set of unique
(node_id, counter) tags; node_id and counter feed add, which no claim
touches. -/
structure ORSet (T : Type) where
  elements : T → Option (Finset (String × Nat))
  nodeId : String
  counter : Nat

/-- ORSet::contains (crdt.rs lines 170–172): key presence — the observable
read. -/
def ORSet.contains {T : Type} (s : ORSet T) (e : T) : Bool :=
  (s.elements e).isSome

/-- Per-element resolution of ORSet::merge (crdt.rs lines 174–181): union
of the tag sets, a key present on one side only keeps that side's tags. -/
def orUnion (a b : Option (Finset (String × Nat))) :
    Option (Finset (String × Nat)) :=
  match a, b with
  | some s, some t => some (s ∪ t)
  | some s, none => some s
  | none, some t => some t
  | none, none => none

/-- ORSet::merge (crdt.rs lines 174–181). -/
def ORSet.merge {T : Type} (s o : ORSet T) : ORSet T :=
  ⟨fun e => orUnion (s.elements e) (o.elements e), s.nodeId, s.counter⟩

/-- The zero G-Counter of node "n0". -/
def gcZero : GCounter :=
  ⟨fun _ => 0, ∅, "n0", fun _ _ => rfl⟩

/-- The zero PN-Counter. -/
def pnZero : PNCounter :=
  ⟨gcZero, gcZero⟩

/-- The empty LWW map over Nat values. -/
def lwwEmptyNat : LWWMap Nat :=
  ⟨fun _ => none, "n0"⟩

/-- The empty OR-Set over Nat elements. -/
def orEmptyNat : ORSet Nat :=
  ⟨fun _ => none, "n0", 0⟩

/-- Replica "Aa" wrote 1 at key "k" at millisecond 5; the source's fold-31
node-id hash of "Aa" is 65*31 + 97 = 2112. -/
def lwwTieA : LWWMap Nat :=
  ⟨fun k => if k = "k" then some (1, ⟨5, 2112⟩) else none, "Aa"⟩

/-- Replica "BB" wrote 2 at key "k" at the same millisecond; the fold-31
hash of "BB" is 66*31 + 66 = 2112, colliding with "Aa", so both timestamps
tie exactly. -/
def lwwTieB : LWWMap Nat :=
  ⟨fun k => if k = "k" then some (2, ⟨5, 2112⟩) else none, "BB"⟩

/-- Consistency modes (state.rs lines 28–34).  The f32 quorum threshold is
modelled as an exact rational (the f32 arithmetic of the source is exact on
every realistic replica count and on the thresholds the spec admits). -/
inductive ConsistencyLevel where
  | Strong
  | Eventual
  | Causal
  | Quorum (threshold : ℚ)

/-- Failure of a state write (state.rs line 125, the anyhow error
"Failed to achieve quorum"). -/
inductive StateError where
  | quorumNotReached
  deriving DecidableEq, Repr

/-- DistributedState::update_local (state.rs lines 74–77) on the map view. -/
def updateLocal {V : Type} (m : String → Option V) (k : String) (v : V) :
    String → Option V :=
  fun k' => if k' = k then some v else m k'

/-- The acknowledgement loop of replicate_quorum (state.rs lines 112–119):
every replica acknowledges unconditionally (the send is a stub comment) and
the loop breaks as soon as the count reaches required. -/
def quorumAcksAux (required acc : Nat) (replicas : List String) : Nat :=
  match replicas with
  | [] => acc
  | _ :: rest =>
      if required ≤ acc + 1 then acc + 1
      else quorumAcksAux required (acc + 1) rest

/-- required_acks = ceil(len * threshold) (state.rs line 109); the
`as usize` cast of a negative float saturates at 0, hence toNat. -/
def requiredAcks (replicas : List String) (threshold : ℚ) : Nat :=
  (⌈(replicas.length : ℚ) * threshold⌉).toNat

/-- DistributedState::replicate_quorum (state.rs lines 108–127): gather
acknowledgements, then either store locally and succeed or fail with
QuorumNotReached leaving the local map untouched. -/
def replicateQuorum {V : Type} (replicas : List String) (threshold : ℚ)
    (k : String) (v : V) (m : String → Option V) :
    Except StateError Unit × (String → Option V) :=
  let required := requiredAcks replicas threshold
  let acks := quorumAcksAux required 0 replicas
  if required ≤ acks then (Except.ok (), updateLocal m k v)
  else (Except.error StateError.quorumNotReached, m)

/-- DistributedState::set (state.rs lines 50–72): Strong runs the stubbed
two-phase commit and stores locally; Eventual stores locally and fires the
no-op gossip task; Causal is a stub returning Ok without touching the map;
Quorum delegates to replicate_quorum. -/
def setWithLevel {V : Type} (level : ConsistencyLevel)
    (replicas : List String) (k : String) (v : V) (m : String → Option V) :
    Except StateError Unit × (String → Option V) :=
  match level with
  | ConsistencyLevel.Strong => (Except.ok (), updateLocal m k v)
  | ConsistencyLevel.Eventual => (Except.ok (), updateLocal m k v)
  | ConsistencyLevel.Causal => (Except.ok (), m)
  | ConsistencyLevel.Quorum t => replicateQuorum replicas t k v m

end Omnix

namespace Omnix

/-- Auxiliary fact: the guarded truncation of handle_append_entries equals
an unconditional take. -/
theorem truncate_eq_take (log : List LogEntry) (n : Nat) :
    (if log.length > n then log.take n else log) = log.take n := by
  split
  · rfl
  · next h => exact (List.take_of_length_le (by omega)).symm

/-- C1 counterexample: with currentTerm 5 a follower still accepts an
AppendEntries whose term is 3 — the entry is appended and commitIndex is
raised — contradicting the claim that acceptance requires
term ≥ currentTerm. -/
theorem handle_append_entries_accepts_stale_term :
    staleAppend.term < staleFollower.currentTerm ∧
    (handleMessage staleFollower staleAppend 7).log = [⟨3, 1, [42]⟩] ∧
    (handleMessage staleFollower staleAppend 7).commitIndex = 1 := by
  refine ⟨by decide, ?_, ?_⟩ <;> decide

/-- Characterization of check_log_consistency: it passes iff prevLogIndex
is 0, or points inside the log at an entry carrying prevLogTerm. -/
theorem checkLogConsistency_iff (log : List LogEntry) (pli plt : Nat) :
    checkLogConsistency log pli plt = true ↔
      (pli = 0 ∨ (pli ≤ log.length ∧
        ∃ e, log.get? (pli - 1) = some e ∧ e.term = plt)) := by
  unfold checkLogConsistency
  split
  · next h => simp [h]
  · next h =>
    split
    · next h2 =>
      refine ⟨fun hf => by simp at hf, ?_⟩
      rintro (h0 | ⟨hle, -⟩)
      · exact absurd h0 h
      · exact absurd hle (by omega)
    · next h2 =>
      cases hget : log.get? (pli - 1) with
      | none =>
        exact absurd (List.get?_eq_none.mp hget) (by omega)
      | some e =>
        simp only [decide_eq_true_eq]
        constructor
        · intro ht
          exact Or.inr ⟨by omega, e, rfl, ht⟩
        · rintro (h0 | ⟨-, e', he', ht'⟩)
          · exact absurd h0 h
          · simp only [Option.some.injEq] at he'
            subst he'
            exact ht'

/-- C1 (amended): a follower accepts an AppendEntries iff the
log-consistency check passes (prevLogIndex = 0, or prevLogIndex ≤ |log| and
the entry at prevLogIndex carries prevLogTerm) — independently of the
message term; on acceptance the log is truncated to its first
prevLogIndex+1 entries and the new entries are appended after them, and
commitIndex becomes min(leaderCommit, |new log|) only when leaderCommit
exceeds the current commitIndex; term, votedFor stay unchanged and the
heartbeat clock is always reset. -/
theorem handle_append_entries_spec (s : RaftState) (term : Nat)
    (lid : String) (pli plt : Nat) (es : List LogEntry) (lc now : Nat) :
    (checkLogConsistency s.log pli plt = true ↔
      (pli = 0 ∨ (pli ≤ s.log.length ∧
        ∃ e, s.log.get? (pli - 1) = some e ∧ e.term = plt))) ∧
    (handleAppendEntries s term lid pli plt es lc now).log =
      (if checkLogConsistency s.log pli plt then s.log.take (pli + 1) ++ es
       else s.log) ∧
    (handleAppendEntries s term lid pli plt es lc now).commitIndex =
      (if checkLogConsistency s.log pli plt then
        (if s.commitIndex < lc then min lc (s.log.take (pli + 1) ++ es).length
         else s.commitIndex)
       else s.commitIndex) ∧
    (handleAppendEntries s term lid pli plt es lc now).currentTerm = s.currentTerm ∧
    (handleAppendEntries s term lid pli plt es lc now).votedFor = s.votedFor ∧
    (handleAppendEntries s term lid pli plt es lc now).lastHeartbeat = now := by
  refine ⟨checkLogConsistency_iff _ _ _, ?_⟩
  unfold handleAppendEntries
  simp only [truncate_eq_take]
  split_ifs <;> simp_all [List.length_take]

/-- C2 is a code bug: handle_append_entries truncates the log to
prevLogIndex+1 entries and then sets commitIndex = min(leaderCommit, |log|),
so commitIndex falls from 5 to 2 on this current-term message — the
specification requires commitIndex to be non-decreasing. -/
theorem commit_index_decreases :
    committedFollower.commitIndex = 5 ∧
    (handleMessage committedFollower truncatingAppend 0).commitIndex = 2 := by
  constructor <;> decide

/-- C5: a RequestVote is granted iff the message term is at least
currentTerm, votedFor is empty or the candidate, and the candidate's log is
at least as up-to-date (strictly larger lastLogTerm, or equal lastLogTerm
with lastLogIndex at least the receiver's log length); a granted vote
records the candidate and resets the election-timeout clock, and nothing
else of the consensus state moves. -/
theorem handle_request_vote_spec (s : RaftState) (term : Nat)
    (cand : String) (lli llt now : Nat) :
    (voteGranted s term cand lli llt = true ↔
      (s.currentTerm ≤ term ∧
        (s.votedFor = none ∨ s.votedFor = some cand) ∧
        (lastLogTerm s.log < llt ∨
          (llt = lastLogTerm s.log ∧ s.log.length ≤ lli)))) ∧
    (handleRequestVote s term cand lli llt now).lastHeartbeat =
      (if voteGranted s term cand lli llt then now else s.lastHeartbeat) ∧
    (handleRequestVote s term cand lli llt now).votedFor =
      (if voteGranted s term cand lli llt then some cand else s.votedFor) ∧
    (handleRequestVote s term cand lli llt now).currentTerm = s.currentTerm ∧
    (handleRequestVote s term cand lli llt now).state = s.state ∧
    (handleRequestVote s term cand lli llt now).log = s.log ∧
    (handleRequestVote s term cand lli llt now).commitIndex = s.commitIndex := by
  constructor
  · unfold voteGranted isLogUpToDate
    simp only [Bool.and_eq_true, Bool.or_eq_true, decide_eq_true_eq,
      ge_iff_le, gt_iff_lt]
    tauto
  · unfold handleRequestVote
    split_ifs <;> simp_all

/-- C6 is a code bug: a message whose term 3 is strictly below the node's
currentTerm 5 still resets the election-timeout clock, appends its entries
and raises commitIndex, while the specification's stale-term policy is
"no state change". -/
theorem stale_message_mutates_state :
    staleAppend.term < staleFollower.currentTerm ∧
    (handleMessage staleFollower staleAppend 99).lastHeartbeat ≠
      staleFollower.lastHeartbeat ∧
    (handleMessage staleFollower staleAppend 99).log ≠ staleFollower.log ∧
    (handleMessage staleFollower staleAppend 99).commitIndex ≠
      staleFollower.commitIndex := by
  refine ⟨by decide, by decide, by decide, by decide⟩

/-- handle_request_vote never changes currentTerm. -/
theorem handleRequestVote_currentTerm (s : RaftState) (term : Nat)
    (cand : String) (lli llt now : Nat) :
    (handleRequestVote s term cand lli llt now).currentTerm = s.currentTerm := by
  unfold handleRequestVote
  split <;> rfl

/-- handle_append_entries never changes currentTerm. -/
theorem handleAppendEntries_currentTerm (s : RaftState) (term : Nat)
    (lid : String) (pli plt : Nat) (es : List LogEntry) (lc now : Nat) :
    (handleAppendEntries s term lid pli plt es lc now).currentTerm =
      s.currentTerm := by
  unfold handleAppendEntries
  dsimp only
  split_ifs <;> rfl

/-- The step-down block never lowers currentTerm. -/
theorem stepDown_currentTerm_le (s : RaftState) (t : Nat) :
    s.currentTerm ≤ (stepDown s t).currentTerm := by
  unfold stepDown
  split
  · next h => exact Nat.le_of_lt h
  · exact Nat.le_refl _

/-- The dispatch arm of handle_message never changes currentTerm. -/
theorem dispatchMessage_currentTerm (s : RaftState) (m : RaftMessage)
    (now : Nat) :
    (dispatchMessage s m now).currentTerm = s.currentTerm := by
  rcases m with ⟨mt, msnd, mty⟩
  cases mty with
  | RequestVote c i l => exact handleRequestVote_currentTerm s mt c i l now
  | RequestVoteResponse g => rfl
  | AppendEntries lid pli plt es lc =>
      exact handleAppendEntries_currentTerm s mt lid pli plt es lc now
  | AppendEntriesResponse a b => rfl
  | Heartbeat => rfl

/-- handle_message never lowers currentTerm. -/
theorem handleMessage_currentTerm_le (s : RaftState) (m : RaftMessage)
    (now : Nat) :
    s.currentTerm ≤ (handleMessage s m now).currentTerm := by
  have h1 := stepDown_currentTerm_le s m.term
  have h2 := dispatchMessage_currentTerm (stepDown s m.term) m now
  unfold handleMessage
  omega

/-- start_election raises currentTerm by exactly one. -/
theorem startElection_currentTerm (s : RaftState) (now : Nat) :
    (startElection s now).currentTerm = s.currentTerm + 1 := by
  unfold startElection becomeLeader
  dsimp only
  split <;> rfl

/-- A single handled event never lowers currentTerm. -/
theorem applyEvent_currentTerm_le (s : RaftState) (e : RaftEvent) :
    s.currentTerm ≤ (applyEvent s e).currentTerm := by
  cases e with
  | deliver m now => exact handleMessage_currentTerm_le s m now
  | electionTimeout now =>
      rw [applyEvent, startElection_currentTerm]
      omega

/-- A whole trace of handled events never lowers currentTerm. -/
theorem applyTrace_currentTerm_le (s : RaftState) (tr : List RaftEvent) :
    s.currentTerm ≤ (applyTrace s tr).currentTerm := by
  induction tr generalizing s with
  | nil => exact Nat.le_refl _
  | cons e rest ih =>
      exact Nat.le_trans (applyEvent_currentTerm_le s e) (ih (applyEvent s e))

/-- C8: currentTerm never decreases across any trace of handled messages
and elections; and on a message whose term strictly exceeds currentTerm the
leading block of handle_message adopts the higher term and downgrades the
role to Follower before the message body is dispatched (handle_message is
exactly the dispatch applied to the stepped-down state). -/
theorem current_term_monotone_and_step_down (s : RaftState)
    (tr : List RaftEvent) (m : RaftMessage) (now : Nat)
    (h : s.currentTerm < m.term) :
    s.currentTerm ≤ (applyTrace s tr).currentTerm ∧
    (stepDown s m.term).state = NodeState.Follower ∧
    (stepDown s m.term).currentTerm = m.term ∧
    handleMessage s m now = dispatchMessage (stepDown s m.term) m now := by
  refine ⟨applyTrace_currentTerm_le s tr, ?_, ?_, rfl⟩ <;>
    simp [stepDown, h]

/-- Witness for C8 at a concrete candidate, trace and high-term message. -/
theorem current_term_monotone_witness :
    witnessCandidate.currentTerm < witnessHighTermMsg.term ∧
    (witnessCandidate.currentTerm ≤
      (applyTrace witnessCandidate [RaftEvent.electionTimeout 3,
        RaftEvent.deliver witnessHighTermMsg 5]).currentTerm ∧
    (stepDown witnessCandidate witnessHighTermMsg.term).state =
      NodeState.Follower ∧
    (stepDown witnessCandidate witnessHighTermMsg.term).currentTerm =
      witnessHighTermMsg.term ∧
    handleMessage witnessCandidate witnessHighTermMsg 5 =
      dispatchMessage (stepDown witnessCandidate witnessHighTermMsg.term)
        witnessHighTermMsg 5) :=
  ⟨by decide,
    current_term_monotone_and_step_down witnessCandidate
      [RaftEvent.electionTimeout 3, RaftEvent.deliver witnessHighTermMsg 5]
      witnessHighTermMsg 5 (by decide)⟩

/-- C4 counterexample: there is no bound on the outstanding queue past
which propose fails with Backpressure — for every candidate bound, a leader
whose log holds bound+1 uncommitted entries still proposes successfully. -/
theorem propose_no_backpressure :
    ¬ ∃ bound : Nat, ∀ (s : RaftState) (v : List Nat),
        bound < s.log.length - s.commitIndex →
        propose s v = Except.error ProposeError.backpressure := by
  rintro ⟨b, hb⟩
  have h := hb (unboundedLeader b) [] (by simp [unboundedLeader])
  simp [propose, unboundedLeader] at h

/-- C4 (amended): propose returns a ProposalId exactly when the local role
is Leader, fails with NotLeader exactly when it is not, and never fails
with Backpressure — the engine has no outstanding-queue bound. -/
theorem propose_spec (s : RaftState) (v : List Nat) :
    ((∃ r, propose s v = Except.ok r) ↔ s.state = NodeState.Leader) ∧
    (propose s v = Except.error ProposeError.notLeader ↔
      s.state ≠ NodeState.Leader) ∧
    propose s v ≠ Except.error ProposeError.backpressure := by
  unfold propose
  split_ifs with h <;> simp [h]

/-- Unfolding lemma: support of a merged G-Counter. -/
theorem gc_merge_support (g o : GCounter) :
    (g.merge o).support = g.support ∪ o.support := rfl

/-- Unfolding lemma: counts of a merged G-Counter. -/
theorem gc_merge_counts (g o : GCounter) (k : String) :
    (g.merge o).counts k = max (g.counts k) (o.counts k) := rfl

/-- Unfolding lemma: the observable value of a G-Counter. -/
theorem gc_value_def (g : GCounter) : g.value = g.support.sum g.counts := rfl

/-- G-Counter merge is commutative on the observable value. -/
theorem gc_merge_value_comm (x y : GCounter) :
    (x.merge y).value = (y.merge x).value := by
  simp only [gc_value_def, gc_merge_support]
  rw [Finset.union_comm]
  refine Finset.sum_congr rfl fun k _ => ?_
  rw [gc_merge_counts, gc_merge_counts]
  exact max_comm _ _

/-- G-Counter merge is associative on the observable value. -/
theorem gc_merge_value_assoc (x y z : GCounter) :
    ((x.merge y).merge z).value = (x.merge (y.merge z)).value := by
  simp only [gc_value_def, gc_merge_support]
  rw [Finset.union_assoc]
  refine Finset.sum_congr rfl fun k _ => ?_
  simp only [gc_merge_counts]
  exact max_assoc _ _ _

/-- G-Counter merge is idempotent on the observable value. -/
theorem gc_merge_value_idem (x : GCounter) :
    (x.merge x).value = x.value := by
  simp only [gc_value_def, gc_merge_support]
  rw [Finset.union_self]
  refine Finset.sum_congr rfl fun k _ => ?_
  simp only [gc_merge_counts]
  exact max_self _

/-- Arithmetic reading of the timestamp comparison. -/
theorem tsGe_iff (a b : Timestamp) :
    tsGe a b = true ↔
      (b.time < a.time ∨ (a.time = b.time ∧ b.nodeIdHash ≤ a.nodeIdHash)) := by
  simp [tsGe]

/-- The timestamp order is total. -/
theorem tsGe_total (a b : Timestamp) :
    tsGe a b = true ∨ tsGe b a = true := by
  rw [tsGe_iff, tsGe_iff]
  omega

/-- The timestamp order is reflexive. -/
theorem tsGe_refl (a : Timestamp) : tsGe a a = true := by
  rw [tsGe_iff]
  omega

/-- The timestamp order is transitive. -/
theorem tsGe_trans (a b c : Timestamp) (h1 : tsGe a b = true)
    (h2 : tsGe b c = true) : tsGe a c = true := by
  rw [tsGe_iff] at h1 h2 ⊢
  omega

/-- Strict timestamp comparisons compose. -/
theorem tsGe_neg_trans (a b c : Timestamp) (h1 : ¬tsGe a b = true)
    (h2 : ¬tsGe b c = true) : ¬tsGe a c = true := by
  rw [tsGe_iff] at h1 h2 ⊢
  omega

/-- Tied timestamps are equal. -/
theorem tsGe_antisymm (a b : Timestamp) (h1 : tsGe a b = true)
    (h2 : tsGe b a = true) : a = b := by
  rcases a with ⟨ta, ha⟩
  rcases b with ⟨tb, hb⟩
  rw [tsGe_iff] at h1 h2
  dsimp only at h1 h2
  simp only [Timestamp.mk.injEq]
  omega

/-- A key present on the left side only keeps the left entry. -/
theorem lwwPick_none_right {V : Type} (a : Option (V × Timestamp)) :
    lwwPick a none = a := by
  rcases a with _ | x <;> rfl

/-- A key present on the right side only takes the right entry. -/
theorem lwwPick_none_left {V : Type} (a : Option (V × Timestamp)) :
    lwwPick none a = a := by
  rcases a with _ | x <;> rfl

/-- The per-key conflict resolution of the LWW merge is associative. -/
theorem lwwPick_assoc {V : Type} (a b c : Option (V × Timestamp)) :
    lwwPick (lwwPick a b) c = lwwPick a (lwwPick b c) := by
  rcases a with _ | x <;> rcases b with _ | y <;> rcases c with _ | z <;>
    try simp only [lwwPick_none_left, lwwPick_none_right]
  by_cases hxy : tsGe x.2 y.2 = true <;> by_cases hyz : tsGe y.2 z.2 = true <;>
    by_cases hxz : tsGe x.2 z.2 = true <;>
    simp [lwwPick, hxy, hyz, hxz] <;>
    first
      | exact absurd (tsGe_trans _ _ _ hxy hyz) hxz
      | exact absurd hxz (tsGe_neg_trans _ _ _ hxy hyz)

/-- The per-key conflict resolution of the LWW merge is idempotent. -/
theorem lwwPick_idem {V : Type} (a : Option (V × Timestamp)) :
    lwwPick a a = a := by
  rcases a with _ | x <;> simp [lwwPick, tsGe_refl]

/-- The per-key conflict resolution of the LWW merge commutes on the
observable value whenever tied timestamps carry equal values. -/
theorem lwwPick_comm_fst {V : Type} (a b : Option (V × Timestamp))
    (h : ∀ va ta vb tb, a = some (va, ta) → b = some (vb, tb) →
      ta = tb → va = vb) :
    (lwwPick a b).map Prod.fst = (lwwPick b a).map Prod.fst := by
  rcases a with _ | x <;> rcases b with _ | y <;>
    try simp only [lwwPick_none_left, lwwPick_none_right]
  by_cases hxy : tsGe x.2 y.2 = true <;> by_cases hyx : tsGe y.2 x.2 = true <;>
    simp [lwwPick, hxy, hyx]
  · have ht := tsGe_antisymm _ _ hxy hyx
    exact h x.1 x.2 y.1 y.2 rfl rfl ht
  · rcases tsGe_total x.2 y.2 with h' | h'
    · exact absurd h' hxy
    · exact absurd h' hyx

/-- Presence in a merged OR-Set element map is the disjunction of the
presences. -/
theorem orUnion_isSome (a b : Option (Finset (String × Nat))) :
    (orUnion a b).isSome = (a.isSome || b.isSome) := by
  rcases a with _ | s <;> rcases b with _ | t <;> rfl

/-- C3 counterexample: two reachable LWW maps whose single entries for key
"k" tie on timestamp (same millisecond, colliding node-id hashes) but carry
different values merge to different observable values depending on the
order, so LWW-Map merge is not commutative. -/
theorem lww_merge_not_commutative :
    (lwwTieA.merge lwwTieB).get "k" = some 1 ∧
    (lwwTieB.merge lwwTieA).get "k" = some 2 := by
  constructor <;> decide

/-- C3 (amended): merge is commutative, associative and idempotent on the
observable values of G-Counter, PN-Counter and OR-Set; for LWW-Map it is
associative and idempotent, and commutative under the proviso that no key
holds entries in the two maps with equal timestamps but different values
(on an exact timestamp tie the receiver keeps its own entry, so the merge
order shows). -/
theorem crdt_merge_laws {V T : Type}
    (gx gy gz : GCounter) (px py pz : PNCounter)
    (lx ly lz : LWWMap V) (ox oy oz : ORSet T)
    (hTie : ∀ k va ta vb tb, lx.entries k = some (va, ta) →
      ly.entries k = some (vb, tb) → ta = tb → va = vb) :
    ((gx.merge gy).value = (gy.merge gx).value ∧
      ((gx.merge gy).merge gz).value = (gx.merge (gy.merge gz)).value ∧
      (gx.merge gx).value = gx.value) ∧
    ((px.merge py).value = (py.merge px).value ∧
      ((px.merge py).merge pz).value = (px.merge (py.merge pz)).value ∧
      (px.merge px).value = px.value) ∧
    ((∀ k, (lx.merge ly).get k = (ly.merge lx).get k) ∧
      (∀ k, ((lx.merge ly).merge lz).get k = (lx.merge (ly.merge lz)).get k) ∧
      (∀ k, (lx.merge lx).get k = lx.get k)) ∧
    ((∀ e, (ox.merge oy).contains e = (oy.merge ox).contains e) ∧
      (∀ e, ((ox.merge oy).merge oz).contains e =
        (ox.merge (oy.merge oz)).contains e) ∧
      (∀ e, (ox.merge ox).contains e = ox.contains e)) := by
  refine ⟨⟨gc_merge_value_comm gx gy, gc_merge_value_assoc gx gy gz,
      gc_merge_value_idem gx⟩, ⟨?_, ?_, ?_⟩, ⟨?_, ?_, ?_⟩, ⟨?_, ?_, ?_⟩⟩
  · show ((px.positive.merge py.positive).value : Int) -
        ((px.negative.merge py.negative).value : Int) = _
    rw [gc_merge_value_comm px.positive py.positive,
      gc_merge_value_comm px.negative py.negative]
    rfl
  · show (((px.positive.merge py.positive).merge pz.positive).value : Int) -
        (((px.negative.merge py.negative).merge pz.negative).value : Int) = _
    rw [gc_merge_value_assoc px.positive py.positive pz.positive,
      gc_merge_value_assoc px.negative py.negative pz.negative]
    rfl
  · show ((px.positive.merge px.positive).value : Int) -
        ((px.negative.merge px.negative).value : Int) = _
    rw [gc_merge_value_idem px.positive, gc_merge_value_idem px.negative]
    rfl
  · intro k
    exact lwwPick_comm_fst (lx.entries k) (ly.entries k)
      fun va ta vb tb hx hy => hTie k va ta vb tb hx hy
  · intro k
    exact congrArg (Option.map Prod.fst)
      (lwwPick_assoc (lx.entries k) (ly.entries k) (lz.entries k))
  · intro k
    exact congrArg (Option.map Prod.fst) (lwwPick_idem (lx.entries k))
  · intro e
    show (orUnion (ox.elements e) (oy.elements e)).isSome =
      (orUnion (oy.elements e) (ox.elements e)).isSome
    rw [orUnion_isSome, orUnion_isSome, Bool.or_comm]
  · intro e
    show (orUnion (orUnion (ox.elements e) (oy.elements e))
        (oz.elements e)).isSome =
      (orUnion (ox.elements e) (orUnion (oy.elements e)
        (oz.elements e))).isSome
    rw [orUnion_isSome, orUnion_isSome, orUnion_isSome, orUnion_isSome,
      Bool.or_assoc]
  · intro e
    show (orUnion (ox.elements e) (ox.elements e)).isSome =
      (ox.elements e).isSome
    rw [orUnion_isSome, Bool.or_self]

/-- Witness for C3 at concrete empty CRDT values, whose LWW maps trivially
satisfy the tie proviso. -/
theorem crdt_merge_laws_witness :
    (∀ k va ta vb tb, lwwEmptyNat.entries k = some (va, ta) →
      lwwEmptyNat.entries k = some (vb, tb) → ta = tb → va = vb) ∧
    (((gcZero.merge gcZero).value = (gcZero.merge gcZero).value ∧
      ((gcZero.merge gcZero).merge gcZero).value =
        (gcZero.merge (gcZero.merge gcZero)).value ∧
      (gcZero.merge gcZero).value = gcZero.value) ∧
    ((pnZero.merge pnZero).value = (pnZero.merge pnZero).value ∧
      ((pnZero.merge pnZero).merge pnZero).value =
        (pnZero.merge (pnZero.merge pnZero)).value ∧
      (pnZero.merge pnZero).value = pnZero.value) ∧
    ((∀ k, (lwwEmptyNat.merge lwwEmptyNat).get k =
        (lwwEmptyNat.merge lwwEmptyNat).get k) ∧
      (∀ k, ((lwwEmptyNat.merge lwwEmptyNat).merge lwwEmptyNat).get k =
        (lwwEmptyNat.merge (lwwEmptyNat.merge lwwEmptyNat)).get k) ∧
      (∀ k, (lwwEmptyNat.merge lwwEmptyNat).get k = lwwEmptyNat.get k)) ∧
    ((∀ e, (orEmptyNat.merge orEmptyNat).contains e =
        (orEmptyNat.merge orEmptyNat).contains e) ∧
      (∀ e, ((orEmptyNat.merge orEmptyNat).merge orEmptyNat).contains e =
        (orEmptyNat.merge (orEmptyNat.merge orEmptyNat)).contains e) ∧
      (∀ e, (orEmptyNat.merge orEmptyNat).contains e =
        orEmptyNat.contains e))) :=
  ⟨fun k va ta vb tb h => by simp [lwwEmptyNat] at h,
    crdt_merge_laws gcZero gcZero gcZero pnZero pnZero pnZero
      lwwEmptyNat lwwEmptyNat lwwEmptyNat orEmptyNat orEmptyNat orEmptyNat
      (fun k va ta vb tb h => by simp [lwwEmptyNat] at h)⟩

/-- C9: PNCounter.value is the exact integer difference of the component
G-Counter totals (the sums of their present counts), and PNCounter.merge
merges the two component G-Counters componentwise. -/
theorem pncounter_value_and_merge (p q : PNCounter) :
    p.value = ((p.positive.support.sum p.positive.counts : Nat) : Int) -
      ((p.negative.support.sum p.negative.counts : Nat) : Int) ∧
    (p.merge q).positive = p.positive.merge q.positive ∧
    (p.merge q).negative = p.negative.merge q.negative :=
  ⟨rfl, rfl, rfl⟩

/-- The ack loop never collects more than the replica count. -/
theorem quorumAcksAux_le (required acc : Nat) (rs : List String) :
    quorumAcksAux required acc rs ≤ acc + rs.length := by
  induction rs generalizing acc with
  | nil => simp [quorumAcksAux]
  | cons r rest ih =>
      rw [quorumAcksAux]
      split
      · simp only [List.length_cons]
        omega
      · have h := ih (acc + 1)
        simp only [List.length_cons] at h ⊢
        omega

/-- When the replica count covers the requirement, the ack loop reaches
the requirement. -/
theorem quorumAcksAux_ge (required acc : Nat) (rs : List String)
    (h : required ≤ acc + rs.length) :
    required ≤ quorumAcksAux required acc rs := by
  induction rs generalizing acc with
  | nil => simpa [quorumAcksAux] using h
  | cons r rest ih =>
      rw [quorumAcksAux]
      split
      · next h2 => exact h2
      · exact ih (acc + 1) (by simp only [List.length_cons] at h; omega)

/-- C7: a set(key, value, Quorum(threshold)) write succeeds exactly when
the gathered acknowledgement count reaches ceil(|peers|·threshold), in
which case the value is stored locally, and otherwise fails with
QuorumNotReached leaving the local map unchanged; moreover the gathered
count reaches the requirement iff the replica count covers it, since every
replica acknowledges unconditionally. -/
theorem set_quorum_spec {V : Type} (replicas : List String) (t : ℚ)
    (k : String) (v : V) (m : String → Option V) :
    (setWithLevel (ConsistencyLevel.Quorum t) replicas k v m =
      if requiredAcks replicas t ≤
          quorumAcksAux (requiredAcks replicas t) 0 replicas
        then (Except.ok (), updateLocal m k v)
        else (Except.error StateError.quorumNotReached, m)) ∧
    (requiredAcks replicas t ≤
        quorumAcksAux (requiredAcks replicas t) 0 replicas ↔
      requiredAcks replicas t ≤ replicas.length) := by
  refine ⟨rfl, ?_, ?_⟩
  · intro h
    have h2 := quorumAcksAux_le (requiredAcks replicas t) 0 replicas
    omega
  · intro h
    exact quorumAcksAux_ge _ 0 _ (by omega)

/-- With a threshold at most one the requirement never exceeds the replica
count. -/
theorem requiredAcks_le_length (replicas : List String) (t : ℚ)
    (h : t ≤ 1) : requiredAcks replicas t ≤ replicas.length := by
  unfold requiredAcks
  have h1 : (replicas.length : ℚ) * t ≤ (replicas.length : ℚ) := by
    calc (replicas.length : ℚ) * t ≤ (replicas.length : ℚ) * 1 :=
          mul_le_mul_of_nonneg_left h (Nat.cast_nonneg _)
      _ = (replicas.length : ℚ) := mul_one _
  have h2 : ⌈(replicas.length : ℚ) * t⌉ ≤ ⌈(replicas.length : ℚ)⌉ :=
    Int.ceil_le_ceil h1
  have h3 : ⌈(replicas.length : ℚ)⌉ = (replicas.length : Int) :=
    Int.ceil_natCast _
  omega

/-- C10: with any threshold at most 1 and any replica list (the empty one
included), the quorum write path acknowledges each replica unconditionally
and the requirement cannot exceed the replica count, so the
QuorumNotReached branch is unreachable: the write always succeeds and
stores the value locally. -/
theorem set_quorum_always_succeeds {V : Type} (replicas : List String)
    (t : ℚ) (k : String) (v : V) (m : String → Option V) (h : t ≤ 1) :
    setWithLevel (ConsistencyLevel.Quorum t) replicas k v m =
      (Except.ok (), updateLocal m k v) := by
  have h1 := requiredAcks_le_length replicas t h
  have h2 := quorumAcksAux_ge (requiredAcks replicas t) 0 replicas (by omega)
  show replicateQuorum replicas t k v m = _
  unfold replicateQuorum
  dsimp only
  rw [if_pos h2]

/-- Witness for C10 at three replicas and threshold one half. -/
theorem set_quorum_always_succeeds_witness :
    ((1 : ℚ)/2 ≤ 1) ∧
    setWithLevel (ConsistencyLevel.Quorum ((1 : ℚ)/2)) ["r1", "r2", "r3"]
        "a" (0 : Nat) (fun _ => none) =
      (Except.ok (), updateLocal (fun _ => none) "a" (0 : Nat)) :=
  ⟨by norm_num,
    set_quorum_always_succeeds ["r1", "r2", "r3"] ((1 : ℚ)/2) "a" 0
      (fun _ => none) (by norm_num)⟩

end Omnix
